import Mathlib

/-!
Shallow embedding of the Monte Carlo retirement simulation engine
(`src/lib/monteCarlo.ts`).  Machine numbers are idealised: 32-bit unsigned
integers become naturals reduced modulo `2 ^ 32`, IEEE doubles become
rationals.  The transcendental part of the Box-Muller transform (sqrt, log,
cos) is abstracted: the simulation is parametrised by a function
`normal : Rng → ℚ × Rng` standing for `nextNormal(0, 1)`, which consumes
generator state and yields a standard-normal draw, exactly as the engine
calls it.  Everything else is translated operation by operation.
-/

namespace MonteCarlo

/-- `2 ^ 32`, the modulus used by every `>>> 0` truncation in the source. -/
def U32MOD : ℕ := 4294967296

/-- JavaScript `x >>> 0` applied to an integer value: reduction to `[0, 2^32)`. -/
def toUint32 (z : ℤ) : ℕ := (z % (4294967296 : ℤ)).toNat

/-- The avalanche mixing pipeline applied to each state word in the
`SeededRandom` constructor:
`s = ((s ^ (s >>> 16)) * 0x85ebca6b) >>> 0`;
`s = ((s ^ (s >>> 13)) * 0xc2b2ae35) >>> 0`;
`(s ^ (s >>> 16)) >>> 0`. -/
def mix32 (s : ℕ) : ℕ :=
  let a := ((Nat.xor s (s / 2 ^ 16)) * 2246822507) % U32MOD
  let b := ((Nat.xor a (a / 2 ^ 13)) * 3266489909) % U32MOD
  Nat.xor b (b / 2 ^ 16)

/-- The xorshift128+ generator state: the two private 32-bit words `s0`, `s1`
of class `SeededRandom`. -/
structure Rng where
  s0 : ℕ
  s1 : ℕ
deriving DecidableEq, Repr

/-- The `SeededRandom` constructor: derive both state words from the seed by
splitmix-style mixing (`s0` from `seed >>> 0`, `s1` from
`(seed + 0x9e3779b9) >>> 0`), then force a non-zero state. -/
def seedState (seed : ℤ) : Rng :=
  let s0 := mix32 (toUint32 seed)
  let s1 := mix32 (toUint32 (seed + 2654435769))
  if s0 = 0 ∧ s1 = 0 then ⟨1, s1⟩ else ⟨s0, s1⟩

/-- `SeededRandom.next()`: one xorshift128+ step, returning a uniform draw in
`[0, 1)` as `((s0 + s1) >>> 0) / 2^32` together with the updated state. -/
def next (g : Rng) : ℚ × Rng :=
  let s1 := g.s0
  let s0 := g.s1
  let a := Nat.xor s1 ((s1 * 2 ^ 23) % U32MOD)
  let b := Nat.xor a (a / 2 ^ 17)
  let c := Nat.xor b s0
  let d := Nat.xor c (s0 / 2 ^ 26)
  let s1new := d % U32MOD
  ((((s0 + s1new) % U32MOD : ℕ) : ℚ) / (U32MOD : ℚ), ⟨s0, s1new⟩)

/-- The rejection loop `while (u === 0) u = this.next();` at the head of
`nextNormal`: draw uniforms until a non-zero one appears.  The unbounded
source loop is modelled with explicit fuel; `none` stands for not finding a
non-zero draw within the fuel bound. -/
def drawNonzeroUniform : ℕ → Rng → Option (ℚ × Rng)
  | 0, _ => none
  | fuel + 1, g =>
    let ug := next g
    if ug.1 = 0 then drawNonzeroUniform fuel ug.2 else some ug

/-- The `SimulationParams` record of the source, field for field.  Rates and
currency amounts are rationals; `years` (the horizon) and `sims` (the trial
count) are naturals; the optional seed is an integer. -/
structure SimulationParams where
  startCorpus : ℚ
  w0 : ℚ
  inflation : ℚ
  inflationSD : ℚ
  returnInflationCorr : ℚ
  years : ℕ
  meanR : ℚ
  stdR : ℚ
  taper : ℚ
  sims : ℕ
  discretionarySpend : ℚ
  cutPct : ℚ
  safeBucketYears : ℚ
  taperStartYear : ℚ
  useFirstNYearsReserve : Bool
  reserveR : ℚ
  randomSeed : Option ℤ
deriving DecidableEq, Repr

/-- The `YearResult` record of the source. -/
structure YearResult where
  year : ℕ
  p10 : ℚ
  p50 : ℚ
  p90 : ℚ
  successRate : ℚ
deriving DecidableEq, Repr

/-- The per-trial mutable state: `riskyCorpus`, `safeRemain`, `w_annual`,
`w_disc_adj`. -/
structure TrialState where
  risky : ℚ
  safe : ℚ
  wAnnual : ℚ
  wDisc : ℚ
deriving DecidableEq, Repr

/-- `Math.max(-0.99, annualInfl)`: clip extreme deflation. -/
def clipInfl (x : ℚ) : ℚ := max (-(99 : ℚ) / 100) x

/-- Safe bucket compounding before spending:
`if (safeRemain > 0 && reserveR > 0) safeRemain *= (1 + reserveR)`. -/
def growSafe (reserveR safe : ℚ) : ℚ :=
  if 0 < safe ∧ 0 < reserveR then safe * (1 + reserveR) else safe

/-- Year-over-year spending adjustment (lines 147-157): skipped in year 1;
inflation growth up to the taper start year, inflation times taper reduction
afterwards, compounding on the previous year's values. -/
def updateSpending (P : SimulationParams) (yr : ℕ) (ci wA wD : ℚ) : ℚ × ℚ :=
  if 1 < yr then
    if (yr : ℚ) ≤ P.taperStartYear then (wA * (1 + ci), wD * (1 + ci))
    else (wA * ((1 + ci) * (1 - P.taper)), wD * ((1 + ci) * (1 - P.taper)))
  else (wA, wD)

/-- Total withdrawal (lines 166-169): essential = `max(0, w_annual - w_disc_adj)`,
total = essential + discretionary. -/
def totalWithdrawal (wA wD : ℚ) : ℚ := max 0 (wA - wD) + wD

/-- The shared bucket draw logic (lines 174-197): when the safe bucket is
active draw from it first with overflow to the risky corpus, otherwise draw
entirely from the risky corpus. -/
def drawFrom (risky safe totalW : ℚ) (useSafeFirst : Bool) : ℚ × ℚ :=
  if useSafeFirst then
    if totalW ≤ safe then (risky, safe - totalW)
    else (risky - (totalW - safe), 0)
  else (risky - totalW, safe)

/-- One iteration of the year loop (lines 124-201) as a state transformer:
sample-derived shocks `z1 z2` in, updated `TrialState` out.  Follows the
source order: correlated shocks, risky growth, safe compounding, spending
update, loss-year discretionary cut, withdrawal by bucket policy, clamp. -/
def yearStep (P : SimulationParams) (corrSqrt : ℚ) (yr : ℕ) (z1 z2 : ℚ)
    (st : TrialState) : TrialState :=
  let r := P.meanR + P.stdR * z1
  let annualInfl :=
    P.inflation + P.inflationSD * (P.returnInflationCorr * z1 + corrSqrt * z2)
  let ci := clipInfl annualInfl
  let risky1 := st.risky * (1 + r)
  let safe1 := growSafe P.reserveR st.safe
  let ws := updateSpending P yr ci st.wAnnual st.wDisc
  let wDisc2 := if r < 0 then ws.2 * (1 - P.cutPct) else ws.2
  let totalW := totalWithdrawal ws.1 wDisc2
  let useSafeFirst : Bool :=
    if P.useFirstNYearsReserve then decide ((yr : ℚ) ≤ P.safeBucketYears ∧ 0 < safe1)
    else decide (r < 0 ∧ 0 < safe1)
  let rs := drawFrom risky1 safe1 totalW useSafeFirst
  ⟨max 0 rs.1, rs.2, ws.1, wDisc2⟩

/-- Trial initialisation (lines 104-115): `safeBucket = safeBucketYears * w0`,
`riskyStart = startCorpus - safeBucket`; risky corpus clamped at 0 and the
whole corpus treated as reserve when the reserve exceeds the corpus. -/
def initTrial (P : SimulationParams) : TrialState :=
  let safeBucket := P.safeBucketYears * P.w0
  let riskyStart := P.startCorpus - safeBucket
  ⟨max 0 riskyStart,
   if riskyStart < 0 then P.startCorpus else safeBucket,
   P.w0, P.discretionarySpend⟩

/-- The year loop for one trial: two normal draws per year from the shared
generator, one recorded total per year, and the early-termination
optimisation (lines 203-209): once both buckets are exactly 0, record 0 for
every remaining year and stop drawing. -/
def simYears (normal : Rng → ℚ × Rng) (P : SimulationParams) (corrSqrt : ℚ) :
    ℕ → ℕ → TrialState → Rng → List ℚ × Rng
  | 0, _, _, g => ([], g)
  | n + 1, yr, st, g =>
    let d1 := normal g
    let d2 := normal d1.2
    let st2 := yearStep P corrSqrt yr d1.1 d2.1 st
    if st2.risky = 0 ∧ st2.safe = 0 then
      ((st2.risky + st2.safe) :: List.replicate n 0, d2.2)
    else
      let rest := simYears normal P corrSqrt n (yr + 1) st2 d2.2
      ((st2.risky + st2.safe) :: rest.1, rest.2)

/-- The variant of `simYears` that keeps advancing a depleted trial through
every remaining year (and keeps drawing from the shared stream) instead of
breaking out of the year loop. -/
def simYearsNoBreak (normal : Rng → ℚ × Rng) (P : SimulationParams) (corrSqrt : ℚ) :
    ℕ → ℕ → TrialState → Rng → List ℚ × Rng
  | 0, _, _, g => ([], g)
  | n + 1, yr, st, g =>
    let d1 := normal g
    let d2 := normal d1.2
    let st2 := yearStep P corrSqrt yr d1.1 d2.1 st
    let rest := simYearsNoBreak normal P corrSqrt n (yr + 1) st2 d2.2
    ((st2.risky + st2.safe) :: rest.1, rest.2)

/-- The trial loop (lines 111-211): `sims` independent trials run
sequentially, all sharing the single draw stream; each trial's row is its
year-0 value followed by the recorded value of years `1..years`. -/
def runTrials (normal : Rng → ℚ × Rng) (P : SimulationParams) (corrSqrt : ℚ) :
    ℕ → Rng → List (List ℚ) × Rng
  | 0, g => ([], g)
  | n + 1, g =>
    let st0 := initTrial P
    let t := simYears normal P corrSqrt P.years 1 st0 g
    let rest := runTrials normal P corrSqrt n t.2
    ((((st0.risky + st0.safe) :: t.1)) :: rest.1, rest.2)

/-- Same as `runTrials` but advancing depleted trials to the horizon. -/
def runTrialsNoBreak (normal : Rng → ℚ × Rng) (P : SimulationParams) (corrSqrt : ℚ) :
    ℕ → Rng → List (List ℚ) × Rng
  | 0, g => ([], g)
  | n + 1, g =>
    let st0 := initTrial P
    let t := simYearsNoBreak normal P corrSqrt P.years 1 st0 g
    let rest := runTrialsNoBreak normal P corrSqrt n t.2
    ((((st0.risky + st0.safe) :: t.1)) :: rest.1, rest.2)

/-- The per-(trial, year) matrix of recorded total portfolio values
(`totalByYear`, reindexed trial-major), with the generator seeded from the
configured seed or the fixed default 12345. -/
def trialMatrix (normal : Rng → ℚ × Rng) (corrSqrt : ℚ) (P : SimulationParams) :
    List (List ℚ) :=
  (runTrials normal P corrSqrt P.sims (seedState (P.randomSeed.getD 12345))).1

/-- Ascending numeric sort used to model `Float64Array.prototype.sort()`. -/
def sortAsc (l : List ℚ) : List ℚ := List.insertionSort (· ≤ ·) l

/-- The aggregation step (lines 213-242) applied to one year's per-trial
values: sort ascending, nearest-rank percentiles at indices
`floor(0.10 * sims)`, `floor(0.50 * sims)`, `floor(0.90 * sims)`, success
counted with the strict `> 1` threshold. -/
def summarizeYear (sims : ℕ) (yr : ℕ) (vals : List ℚ) : YearResult :=
  let sorted := sortAsc vals
  { year := yr
    p10 := sorted.getD ⌊(1 / 10 : ℚ) * sims⌋₊ 0
    p50 := sorted.getD ⌊(1 / 2 : ℚ) * sims⌋₊ 0
    p90 := sorted.getD ⌊(9 / 10 : ℚ) * sims⌋₊ 0
    successRate := ((sorted.countP fun v => decide (1 < v) : ℕ) : ℚ) / sims * 100 }

/-- `runMonteCarlo`: run the trials then reduce each year `0..years` to a
`YearResult`. -/
def runMonteCarlo (normal : Rng → ℚ × Rng) (corrSqrt : ℚ) (P : SimulationParams) :
    List YearResult :=
  let rows := trialMatrix normal corrSqrt P
  (List.range (P.years + 1)).map fun yr =>
    summarizeYear P.sims yr (rows.map fun row => row.getD yr 0)

/-- The whole-run variant in which a depleted trial keeps advancing (and
drawing) through every remaining year instead of breaking out. -/
def runMonteCarloNoBreak (normal : Rng → ℚ × Rng) (corrSqrt : ℚ)
    (P : SimulationParams) : List YearResult :=
  let rows := (runTrialsNoBreak normal P corrSqrt P.sims
    (seedState (P.randomSeed.getD 12345))).1
  (List.range (P.years + 1)).map fun yr =>
    summarizeYear P.sims yr (rows.map fun row => row.getD yr 0)

/-- Modelled from the spec: the validity predicate of the error-handling
section (§7), which the source does not implement — positive trial count and
positive horizon (non-finite rates are unrepresentable in the rational
model). -/
def specValidConfig (P : SimulationParams) : Bool :=
  decide (0 < P.sims) && decide (0 < P.years)

/-- A concrete computable stand-in for the Box-Muller normal draw used in
witnesses and counterexamples: it consumes one uniform from the shared
generator, exactly like a draw, and maps it affinely into `[-2, 2)`. -/
def testNormal (g : Rng) : ℚ × Rng :=
  let ug := next g
  (4 * ug.1 - 2, ug.2)


/-! ### Concrete configurations used by witnesses and counterexamples -/

/-- A configuration on which the early-termination break changes the shared
stream alignment: two trials, two years, trial 0 depletes in year 1. -/
def P_c1 : SimulationParams :=
  { startCorpus := 1, w0 := 1, inflation := 0, inflationSD := 0,
    returnInflationCorr := 0, years := 2, meanR := 33/25, stdR := -1,
    taper := 0, sims := 2, discretionarySpend := 0, cutPct := 0,
    safeBucketYears := 0, taperStartYear := 0, useFirstNYearsReserve := false,
    reserveR := 0, randomSeed := some 12345 }

/-- An invalid configuration in the sense of the spec: zero trials. -/
def P_c2bad : SimulationParams :=
  { startCorpus := 5, w0 := 1, inflation := 0, inflationSD := 0,
    returnInflationCorr := 0, years := 1, meanR := 0, stdR := 0,
    taper := 0, sims := 0, discretionarySpend := 0, cutPct := 0,
    safeBucketYears := 0, taperStartYear := 0, useFirstNYearsReserve := false,
    reserveR := 0, randomSeed := some 0 }

/-- A small well-formed configuration whose reserve (5 years of base spend 6)
exceeds the starting corpus 10, used as the concrete input of several
witnesses. -/
def P_w : SimulationParams :=
  { startCorpus := 10, w0 := 6, inflation := 0, inflationSD := 0,
    returnInflationCorr := 0, years := 2, meanR := 0, stdR := 1,
    taper := 1/20, sims := 2, discretionarySpend := 1, cutPct := 1/2,
    safeBucketYears := 5, taperStartYear := 2, useFirstNYearsReserve := true,
    reserveR := 11/200, randomSeed := none }

/-! ### Basic facts about the trial state machine -/

theorem initTrial_sum (P : SimulationParams) :
    (initTrial P).risky + (initTrial P).safe = P.startCorpus := by
  unfold initTrial
  by_cases h : P.startCorpus - P.safeBucketYears * P.w0 < 0
  · simp only [h, if_true, max_eq_left h.le, zero_add]
  · simp only [h, if_false, max_eq_right (not_lt.mp h), sub_add_cancel]

theorem initTrial_nonneg (P : SimulationParams) (h1 : 0 ≤ P.startCorpus)
    (h2 : 0 ≤ P.w0) (h3 : 0 ≤ P.safeBucketYears) :
    0 ≤ (initTrial P).risky ∧ 0 ≤ (initTrial P).safe := by
  unfold initTrial
  refine ⟨le_max_left 0 _, ?_⟩
  by_cases h : P.startCorpus - P.safeBucketYears * P.w0 < 0
  · simp only [h, if_true]; exact h1
  · simp only [h, if_false]; exact mul_nonneg h3 h2

theorem growSafe_nonneg (reserveR safe : ℚ) (h : 0 ≤ safe) :
    0 ≤ growSafe reserveR safe := by
  unfold growSafe
  split
  · next hc => exact le_of_lt (mul_pos hc.1 (by linarith [hc.2]))
  · exact h

theorem growSafe_zero (reserveR : ℚ) : growSafe reserveR 0 = 0 := by
  unfold growSafe
  split
  · next hc => exact absurd hc.1 (lt_irrefl 0)
  · rfl

theorem one_add_clipInfl_pos (x : ℚ) : 0 < 1 + clipInfl x := by
  have := le_max_left (-(99 : ℚ) / 100) x
  unfold clipInfl
  linarith

theorem updateSpending_one (P : SimulationParams) (ci wA wD : ℚ) :
    updateSpending P 1 ci wA wD = (wA, wD) := by
  unfold updateSpending
  simp

theorem updateSpending_snd_nonneg (P : SimulationParams) (yr : ℕ) (ci wA wD : ℚ)
    (hw : 0 ≤ wD) (ht : P.taper ≤ 1) (hci : 0 ≤ 1 + ci) :
    0 ≤ (updateSpending P yr ci wA wD).2 := by
  unfold updateSpending
  split
  · split
    · exact mul_nonneg hw hci
    · exact mul_nonneg hw (mul_nonneg hci (by linarith))
  · exact hw

theorem totalWithdrawal_nonneg (wA wD : ℚ) (h : 0 ≤ wD) :
    0 ≤ totalWithdrawal wA wD := add_nonneg (le_max_left 0 _) h

/-! ### The year step: non-negativity, depletion, frame facts -/

theorem drawFrom_safe_nonneg (risky safe totalW : ℚ) (b : Bool) (h : 0 ≤ safe) :
    0 ≤ (drawFrom risky safe totalW b).2 := by
  unfold drawFrom
  cases b with
  | false => simpa using h
  | true =>
    simp only [if_true]
    split
    · next h2 => simpa using sub_nonneg.mpr h2
    · simp

theorem yearStep_risky_nonneg (P : SimulationParams) (c : ℚ) (yr : ℕ) (z1 z2 : ℚ)
    (st : TrialState) : 0 ≤ (yearStep P c yr z1 z2 st).risky := by
  unfold yearStep
  exact le_max_left 0 _

theorem yearStep_safe_nonneg (P : SimulationParams) (c : ℚ) (yr : ℕ) (z1 z2 : ℚ)
    (st : TrialState) (h : 0 ≤ st.safe) : 0 ≤ (yearStep P c yr z1 z2 st).safe := by
  unfold yearStep
  dsimp only
  exact drawFrom_safe_nonneg _ _ _ _ (growSafe_nonneg _ _ h)

theorem yearStep_wDisc_nonneg (P : SimulationParams) (c : ℚ) (yr : ℕ) (z1 z2 : ℚ)
    (st : TrialState) (hw : 0 ≤ st.wDisc) (ht : P.taper ≤ 1) (hc : P.cutPct ≤ 1) :
    0 ≤ (yearStep P c yr z1 z2 st).wDisc := by
  have hup : 0 ≤ (updateSpending P yr
      (clipInfl (P.inflation + P.inflationSD *
        (P.returnInflationCorr * z1 + c * z2))) st.wAnnual st.wDisc).2 :=
    updateSpending_snd_nonneg P yr _ _ _ hw ht (le_of_lt (one_add_clipInfl_pos _))
  unfold yearStep
  dsimp only
  split
  · exact mul_nonneg hup (by linarith)
  · exact hup

theorem yearStep_depleted (P : SimulationParams) (c : ℚ) (yr : ℕ) (z1 z2 : ℚ)
    (st : TrialState) (hr : st.risky = 0) (hs : st.safe = 0) (hc : P.cutPct ≤ 1)
    (hupGen : ∀ ci, 0 ≤ 1 + ci → 0 ≤ (updateSpending P yr ci st.wAnnual st.wDisc).2) :
    (yearStep P c yr z1 z2 st).risky = 0 ∧ (yearStep P c yr z1 z2 st).safe = 0 ∧
      0 ≤ (yearStep P c yr z1 z2 st).wDisc := by
  have hup : 0 ≤ (updateSpending P yr
      (clipInfl (P.inflation + P.inflationSD *
        (P.returnInflationCorr * z1 + c * z2))) st.wAnnual st.wDisc).2 :=
    hupGen _ (le_of_lt (one_add_clipInfl_pos _))
  have hw2 : 0 ≤ (if P.meanR + P.stdR * z1 < 0 then
      (updateSpending P yr
        (clipInfl (P.inflation + P.inflationSD *
          (P.returnInflationCorr * z1 + c * z2))) st.wAnnual st.wDisc).2 * (1 - P.cutPct)
      else (updateSpending P yr
        (clipInfl (P.inflation + P.inflationSD *
          (P.returnInflationCorr * z1 + c * z2))) st.wAnnual st.wDisc).2) := by
    split
    · exact mul_nonneg hup (by linarith)
    · exact hup
  have htw := totalWithdrawal_nonneg ((updateSpending P yr
      (clipInfl (P.inflation + P.inflationSD *
        (P.returnInflationCorr * z1 + c * z2))) st.wAnnual st.wDisc).1) _ hw2
  unfold yearStep
  dsimp only
  rw [hr, hs, growSafe_zero]
  simp only [lt_self_iff_false, and_false, decide_False, ite_self]
  unfold drawFrom
  simp only [Bool.false_eq_true, if_false, zero_mul, zero_sub]
  refine ⟨?_, trivial, hw2⟩
  exact max_eq_left (neg_nonpos.mpr htw)

/-! ### The trial year loop -/

theorem getD_replicate_zero (n j : ℕ) : (List.replicate n (0 : ℚ)).getD j 0 = 0 := by
  induction n generalizing j with
  | zero => simp
  | succ n ih =>
    cases j with
    | zero => simp [List.replicate_succ]
    | succ j => simp [List.replicate_succ, List.getD_cons_succ, ih j]

theorem simYears_length (normal : Rng → ℚ × Rng) (P : SimulationParams) (c : ℚ) :
    ∀ (n yr : ℕ) (st : TrialState) (g : Rng),
      ((simYears normal P c n yr st g).1).length = n := by
  intro n
  induction n with
  | zero => intro yr st g; rfl
  | succ n ih =>
    intro yr st g
    simp only [simYears]
    split
    · simp
    · simp [ih]

theorem simYears_nonneg (normal : Rng → ℚ × Rng) (P : SimulationParams) (c : ℚ) :
    ∀ (n yr : ℕ) (st : TrialState) (g : Rng), 0 ≤ st.risky → 0 ≤ st.safe →
      ∀ v ∈ (simYears normal P c n yr st g).1, 0 ≤ v := by
  intro n
  induction n with
  | zero => intro yr st g _ _ v hv; simp [simYears] at hv
  | succ n ih =>
    intro yr st g hr hs v hv
    have hr2 := yearStep_risky_nonneg P c yr (normal g).1 (normal (normal g).2).1 st
    have hs2 := yearStep_safe_nonneg P c yr (normal g).1 (normal (normal g).2).1 st hs
    simp only [simYears] at hv
    split at hv
    · rcases List.mem_cons.mp hv with h | h
      · exact h ▸ add_nonneg hr2 hs2
      · rw [List.eq_of_mem_replicate h]
    · rcases List.mem_cons.mp hv with h | h
      · exact h ▸ add_nonneg hr2 hs2
      · exact ih (yr + 1) _ _ hr2 hs2 v h

theorem simYears_zeroTerminal (normal : Rng → ℚ × Rng) (P : SimulationParams) (c : ℚ) :
    ∀ (n yr : ℕ) (st : TrialState) (g : Rng), 0 ≤ st.risky → 0 ≤ st.safe →
      ∀ i j, i ≤ j → ((simYears normal P c n yr st g).1).getD i 0 = 0 →
        ((simYears normal P c n yr st g).1).getD j 0 = 0 := by
  intro n
  induction n with
  | zero => intro yr st g _ _ i j _ _; simp [simYears]
  | succ n ih =>
    intro yr st g hr hs i j hij hi
    have hr2 := yearStep_risky_nonneg P c yr (normal g).1 (normal (normal g).2).1 st
    have hs2 := yearStep_safe_nonneg P c yr (normal g).1 (normal (normal g).2).1 st hs
    simp only [simYears] at hi ⊢
    by_cases hb : (yearStep P c yr (normal g).1 (normal (normal g).2).1 st).risky = 0 ∧
        (yearStep P c yr (normal g).1 (normal (normal g).2).1 st).safe = 0
    · rw [if_pos hb] at hi ⊢
      cases j with
      | zero => simp [hb.1, hb.2]
      | succ j => simp [List.getD_cons_succ, getD_replicate_zero n j]
    · rw [if_neg hb] at hi ⊢
      cases i with
      | zero =>
        rw [List.getD_cons_zero] at hi
        have h1 : (yearStep P c yr (normal g).1 (normal (normal g).2).1 st).risky = 0 := by
          linarith
        have h2 : (yearStep P c yr (normal g).1 (normal (normal g).2).1 st).safe = 0 := by
          linarith
        exact absurd ⟨h1, h2⟩ hb
      | succ i =>
        cases j with
        | zero => exact absurd hij (Nat.not_succ_le_zero i)
        | succ j =>
          rw [List.getD_cons_succ] at hi ⊢
          exact ih (yr + 1) _ _ hr2 hs2 i j (Nat.succ_le_succ_iff.mp hij) hi

theorem simYears_one_depleted (normal : Rng → ℚ × Rng) (P : SimulationParams) (c : ℚ)
    (n : ℕ) (st : TrialState) (g : Rng)
    (hr : st.risky = 0) (hs : st.safe = 0) (hw : 0 ≤ st.wDisc) (hc : P.cutPct ≤ 1) :
    ∀ j, ((simYears normal P c n 1 st g).1).getD j 0 = 0 := by
  intro j
  cases n with
  | zero => simp [simYears]
  | succ n =>
    have hd := yearStep_depleted P c 1 (normal g).1 (normal (normal g).2).1 st hr hs hc
      (fun ci _ => by rw [updateSpending_one]; exact hw)
    simp only [simYears]
    rw [if_pos ⟨hd.1, hd.2.1⟩]
    cases j with
    | zero => simp [hd.1, hd.2.1]
    | succ j => simp [List.getD_cons_succ, getD_replicate_zero n j]

theorem simYearsNoBreak_depleted (normal : Rng → ℚ × Rng) (P : SimulationParams) (c : ℚ)
    (ht : P.taper ≤ 1) (hc : P.cutPct ≤ 1) :
    ∀ (n yr : ℕ) (st : TrialState) (g : Rng),
      st.risky = 0 → st.safe = 0 → 0 ≤ st.wDisc →
      (simYearsNoBreak normal P c n yr st g).1 = List.replicate n 0 := by
  intro n
  induction n with
  | zero => intro yr st g _ _ _; rfl
  | succ n ih =>
    intro yr st g hr hs hw
    have hd := yearStep_depleted P c yr (normal g).1 (normal (normal g).2).1 st hr hs hc
      (fun ci hci => updateSpending_snd_nonneg P yr ci st.wAnnual st.wDisc hw ht hci)
    simp only [simYearsNoBreak]
    rw [List.replicate_succ]
    rw [ih (yr + 1) _ (normal (normal g).2).2 hd.1 hd.2.1 hd.2.2]
    simp [hd.1, hd.2.1]

theorem simYears_eq_noBreak (normal : Rng → ℚ × Rng) (P : SimulationParams) (c : ℚ)
    (ht : P.taper ≤ 1) (hc : P.cutPct ≤ 1) :
    ∀ (n yr : ℕ) (st : TrialState) (g : Rng), 0 ≤ st.wDisc →
      (simYears normal P c n yr st g).1 = (simYearsNoBreak normal P c n yr st g).1 := by
  intro n
  induction n with
  | zero => intro yr st g _; rfl
  | succ n ih =>
    intro yr st g hw
    have hw2 := yearStep_wDisc_nonneg P c yr (normal g).1 (normal (normal g).2).1 st hw ht hc
    simp only [simYears, simYearsNoBreak]
    by_cases hb : (yearStep P c yr (normal g).1 (normal (normal g).2).1 st).risky = 0 ∧
        (yearStep P c yr (normal g).1 (normal (normal g).2).1 st).safe = 0
    · rw [if_pos hb]
      have hnb := simYearsNoBreak_depleted normal P c ht hc n (yr + 1) _
        (normal (normal g).2).2 hb.1 hb.2 hw2
      simp [hnb]
    · rw [if_neg hb]
      simp [ih (yr + 1) _ (normal (normal g).2).2 hw2]

/-! ### The trial loop -/

theorem runTrials_length (normal : Rng → ℚ × Rng) (P : SimulationParams) (c : ℚ) :
    ∀ (n : ℕ) (g : Rng), ((runTrials normal P c n g).1).length = n := by
  intro n
  induction n with
  | zero => intro g; rfl
  | succ n ih => intro g; simp [runTrials, ih]

theorem runTrials_mem (normal : Rng → ℚ × Rng) (P : SimulationParams) (c : ℚ) :
    ∀ (n : ℕ) (g : Rng) (row : List ℚ), row ∈ (runTrials normal P c n g).1 →
      ∃ g0, row = ((initTrial P).risky + (initTrial P).safe) ::
        (simYears normal P c P.years 1 (initTrial P) g0).1 := by
  intro n
  induction n with
  | zero => intro g row h; simp [runTrials] at h
  | succ n ih =>
    intro g row h
    simp only [runTrials] at h
    rcases List.mem_cons.mp h with h | h
    · exact ⟨g, h⟩
    · exact ih _ row h

/-! ### Sorting and percentile indices -/

theorem sortAsc_perm (l : List ℚ) : (sortAsc l).Perm l := List.perm_insertionSort _ l

theorem sortAsc_sorted (l : List ℚ) : List.Sorted (· ≤ ·) (sortAsc l) :=
  List.sorted_insertionSort _ l

theorem sortAsc_length (l : List ℚ) : (sortAsc l).length = l.length :=
  (sortAsc_perm l).length_eq

theorem sorted_getD_mono {l : List ℚ} (h : List.Sorted (· ≤ ·) l) {i j : ℕ}
    (hij : i ≤ j) (hj : j < l.length) : l.getD i 0 ≤ l.getD j 0 := by
  have hi : i < l.length := lt_of_le_of_lt hij hj
  rw [List.getD_eq_getElem l 0 hi, List.getD_eq_getElem l 0 hj]
  exact List.Sorted.rel_get_of_le h hij

theorem floor_tenth_le_half (s : ℕ) : ⌊(1 / 10 : ℚ) * s⌋₊ ≤ ⌊(1 / 2 : ℚ) * s⌋₊ :=
  Nat.floor_le_floor (by
    have : (0 : ℚ) ≤ s := Nat.cast_nonneg s
    nlinarith)

theorem floor_half_le_ninth (s : ℕ) : ⌊(1 / 2 : ℚ) * s⌋₊ ≤ ⌊(9 / 10 : ℚ) * s⌋₊ :=
  Nat.floor_le_floor (by
    have : (0 : ℚ) ≤ s := Nat.cast_nonneg s
    nlinarith)

theorem floor_ninth_lt (s : ℕ) (hs : 0 < s) : ⌊(9 / 10 : ℚ) * s⌋₊ < s := by
  rw [Nat.floor_lt (by positivity)]
  have h : (0 : ℚ) < s := by exact_mod_cast hs
  nlinarith

theorem runMonteCarlo_getD (normal : Rng → ℚ × Rng) (c : ℚ) (P : SimulationParams)
    {yr : ℕ} (h : yr ≤ P.years) :
    (runMonteCarlo normal c P).getD yr ⟨0, 0, 0, 0, 0⟩ =
      summarizeYear P.sims yr ((trialMatrix normal c P).map fun row => row.getD yr 0) := by
  have hlt : yr < ((List.range (P.years + 1)).map fun y =>
      summarizeYear P.sims y ((trialMatrix normal c P).map fun row => row.getD y 0)).length := by
    simpa using Nat.lt_succ_of_le h
  unfold runMonteCarlo
  rw [List.getD_eq_getElem _ _ hlt]
  simp

/-! ### Claim C1: early termination -/

unseal Rat.mul Rat.inv Rat.add Rat.sub in
/-- Claim C1 (counterexample): early termination is NOT a pure optimisation
with respect to the shared draw stream.  On the concrete configuration
`P_c1` (two trials, two years), trial 0 depletes in year 1; the variant that
keeps advancing it through year 2 consumes two extra draws, so trial 1 sees
different draws and the whole-run output differs. -/
theorem c1_earlyTermination_not_stream_pure :
    runMonteCarlo testNormal 1 P_c1 ≠ runMonteCarloNoBreak testNormal 1 P_c1 := by
  decide

/-- Claim C1 (amended): given the same stream position, a depleted trial
records exactly the same values whether it breaks out or keeps advancing —
continuing from a depleted state records 0 for every remaining year
(provided the discretionary level is non-negative, the taper rate at most 1
and the cut fraction at most 1, so the withdrawal stays non-negative).  Only
the stream position for subsequent trials differs. -/
theorem c1_earlyTermination_preserves_trial_values (normal : Rng → ℚ × Rng)
    (P : SimulationParams) (c : ℚ) (ht : P.taper ≤ 1) (hc : P.cutPct ≤ 1)
    (n yr : ℕ) (st : TrialState) (g : Rng) (hw : 0 ≤ st.wDisc) :
    (simYears normal P c n yr st g).1 = (simYearsNoBreak normal P c n yr st g).1 :=
  simYears_eq_noBreak normal P c ht hc n yr st g hw

unseal Rat.mul Rat.inv Rat.add Rat.sub in
theorem c1_earlyTermination_preserves_trial_values_witness :
    (simYears testNormal P_c1 1 2 1 (initTrial P_c1) (seedState 12345)).1 =
      (simYearsNoBreak testNormal P_c1 1 2 1 (initTrial P_c1) (seedState 12345)).1 :=
  c1_earlyTermination_preserves_trial_values testNormal P_c1 1 (by decide) (by decide)
    2 1 (initTrial P_c1) (seedState 12345) (by decide)

/-! ### Claim C2: boundary validation -/

unseal Rat.mul Rat.inv Rat.add Rat.sub in
/-- Claim C2 (counterexample): `runMonteCarlo` performs no boundary
validation.  `P_c2bad` has a non-positive trial count (`sims = 0`), which the
spec's validity predicate rejects, yet the engine returns an ordinary
`YearResult` list (with degenerate all-zero summaries) instead of failing
with any InvalidConfiguration condition. -/
theorem c2_no_invalid_configuration_check :
    specValidConfig P_c2bad = false ∧
      runMonteCarlo testNormal 1 P_c2bad =
        [⟨0, 0, 0, 0, 0⟩, ⟨1, 0, 0, 0, 0⟩] := by
  decide

/-- Claim C2 (amended): `runMonteCarlo` is a total function on configurations
— every configuration, valid or not, produces a result list of length
`years + 1`; no configuration is ever rejected. -/
theorem c2_runMonteCarlo_total (normal : Rng → ℚ × Rng) (c : ℚ)
    (P : SimulationParams) : (runMonteCarlo normal c P).length = P.years + 1 := by
  unfold runMonteCarlo
  simp

/-! ### Claim C8: the Box-Muller rejection loop -/

theorem next_unit (g : Rng) : 0 ≤ (next g).1 ∧ (next g).1 < 1 := by
  unfold next
  dsimp only
  constructor
  · positivity
  · rw [div_lt_one (by norm_num [U32MOD])]
    have hlt := Nat.mod_lt (g.s1 +
      (Nat.xor (Nat.xor (Nat.xor (Nat.xor g.s0 ((g.s0 * 2 ^ 23) % U32MOD))
        ((Nat.xor g.s0 ((g.s0 * 2 ^ 23) % U32MOD)) / 2 ^ 17)) g.s1)
        (g.s1 / 2 ^ 26)) % U32MOD) (y := U32MOD) (by norm_num [U32MOD])
    exact_mod_cast hlt

theorem drawNonzeroUniform_pos :
    ∀ (fuel : ℕ) (g : Rng) (u : ℚ) (g2 : Rng),
      drawNonzeroUniform fuel g = some (u, g2) → 0 < u ∧ u < 1 := by
  intro fuel
  induction fuel with
  | zero => intro g u g2 h; simp [drawNonzeroUniform] at h
  | succ fuel ih =>
    intro g u g2 h
    simp only [drawNonzeroUniform] at h
    split at h
    · exact ih _ u g2 h
    · next hne =>
      have heq : next g = (u, g2) := Option.some.inj h
      have hu : (next g).1 = u := by rw [heq]
      have h1 := next_unit g
      rw [hu] at h1
      refine ⟨?_, h1.2⟩
      rcases lt_or_eq_of_le h1.1 with hlt | heq0
      · exact hlt
      · exact absurd (hu.trans heq0.symm) hne

/-- Claim C8: every uniform draw lies in `[0, 1)`, and whenever the rejection
loop of `nextNormal` returns a uniform, that uniform lies strictly inside
`(0, 1)` — so the Box-Muller logarithm is never applied at or outside its
singularity and (in exact arithmetic) the transform's inputs are always in
range. -/
theorem c8_boxMuller_domain (g : Rng) :
    (0 ≤ (next g).1 ∧ (next g).1 < 1) ∧
    ∀ (fuel : ℕ) (u : ℚ) (g2 : Rng), drawNonzeroUniform fuel g = some (u, g2) →
      0 < u ∧ u < 1 :=
  ⟨next_unit g, fun fuel u g2 h => drawNonzeroUniform_pos fuel g u g2 h⟩

unseal Rat.mul Rat.inv Rat.add Rat.sub in
theorem c8_boxMuller_domain_witness :
    0 < (1857317255 : ℚ) / 2147483648 ∧ (1857317255 : ℚ) / 2147483648 < 1 :=
  (c8_boxMuller_domain (seedState 12345)).2 1 ((1857317255 : ℚ) / 2147483648)
    ⟨1200724404, 2513910106⟩ (by decide)

/-! ### Claims C3-C6: the aggregation step -/

theorem trialMatrix_length (normal : Rng → ℚ × Rng) (c : ℚ) (P : SimulationParams) :
    (trialMatrix normal c P).length = P.sims :=
  runTrials_length normal P c P.sims _

theorem getD_replicate_of_lt (a : ℚ) (n j : ℕ) (h : j < n) :
    (List.replicate n a).getD j 0 = a := by
  rw [List.getD_eq_getElem _ _ (by simpa using h)]
  simp

/-- Claim C3: every year's `YearResult` is computed from that year's
per-trial values by sorting them ascending and taking the nearest-rank
entries at indices `floor(0.10 sims)`, `floor(0.50 sims)`, `floor(0.90 sims)`
with no interpolation, and the success rate is 100 times the fraction of
trials whose value is strictly greater than 1. -/
theorem c3_percentiles_nearest_rank (normal : Rng → ℚ × Rng) (c : ℚ)
    (P : SimulationParams) (_hs : 0 < P.sims) {yr : ℕ} (hyr : yr ≤ P.years) :
    List.Sorted (· ≤ ·) (sortAsc ((trialMatrix normal c P).map fun row => row.getD yr 0)) ∧
    (sortAsc ((trialMatrix normal c P).map fun row => row.getD yr 0)).Perm
      ((trialMatrix normal c P).map fun row => row.getD yr 0) ∧
    (runMonteCarlo normal c P).getD yr ⟨0, 0, 0, 0, 0⟩ =
      { year := yr
        p10 := (sortAsc ((trialMatrix normal c P).map fun row => row.getD yr 0)).getD
          ⌊(1 / 10 : ℚ) * P.sims⌋₊ 0
        p50 := (sortAsc ((trialMatrix normal c P).map fun row => row.getD yr 0)).getD
          ⌊(1 / 2 : ℚ) * P.sims⌋₊ 0
        p90 := (sortAsc ((trialMatrix normal c P).map fun row => row.getD yr 0)).getD
          ⌊(9 / 10 : ℚ) * P.sims⌋₊ 0
        successRate := 100 * (((((trialMatrix normal c P).map fun row => row.getD yr 0).filter
          fun v => decide (1 < v)).length : ℕ) : ℚ) / P.sims } := by
  refine ⟨sortAsc_sorted _, sortAsc_perm _, ?_⟩
  rw [runMonteCarlo_getD normal c P hyr]
  unfold summarizeYear
  have hcount : (sortAsc ((trialMatrix normal c P).map fun row => row.getD yr 0)).countP
      (fun v => decide (1 < v)) =
      ((((trialMatrix normal c P).map fun row => row.getD yr 0).filter
        fun v => decide (1 < v)).length : ℕ) := by
    rw [(sortAsc_perm _).countP_eq]
    exact List.countP_eq_length_filter _ _
  simp only [YearResult.mk.injEq]
  refine ⟨trivial, trivial, trivial, trivial, ?_⟩
  rw [hcount]
  ring

theorem c3_percentiles_nearest_rank_witness :
    List.Sorted (· ≤ ·) (sortAsc ((trialMatrix testNormal 1 P_w).map fun row => row.getD 1 0)) ∧
    (sortAsc ((trialMatrix testNormal 1 P_w).map fun row => row.getD 1 0)).Perm
      ((trialMatrix testNormal 1 P_w).map fun row => row.getD 1 0) ∧
    (runMonteCarlo testNormal 1 P_w).getD 1 ⟨0, 0, 0, 0, 0⟩ =
      { year := 1
        p10 := (sortAsc ((trialMatrix testNormal 1 P_w).map fun row => row.getD 1 0)).getD
          ⌊(1 / 10 : ℚ) * P_w.sims⌋₊ 0
        p50 := (sortAsc ((trialMatrix testNormal 1 P_w).map fun row => row.getD 1 0)).getD
          ⌊(1 / 2 : ℚ) * P_w.sims⌋₊ 0
        p90 := (sortAsc ((trialMatrix testNormal 1 P_w).map fun row => row.getD 1 0)).getD
          ⌊(9 / 10 : ℚ) * P_w.sims⌋₊ 0
        successRate := 100 * (((((trialMatrix testNormal 1 P_w).map fun row => row.getD 1 0).filter
          fun v => decide (1 < v)).length : ℕ) : ℚ) / P_w.sims } :=
  c3_percentiles_nearest_rank testNormal 1 P_w (by decide) (by decide)

/-- Claim C4: for any configuration with at least one trial and a starting
corpus above the success threshold, every trial's recorded year-0 value is
the starting corpus, and the year-0 summary has all three percentiles equal
to the starting corpus with a 100 percent success rate — including when the
reserve exceeds the starting corpus. -/
theorem c4_year_zero_invariant (normal : Rng → ℚ × Rng) (c : ℚ) (P : SimulationParams)
    (hs : 1 ≤ P.sims) (hsc : 1 < P.startCorpus) :
    (∀ row ∈ trialMatrix normal c P, row.getD 0 0 = P.startCorpus) ∧
    (runMonteCarlo normal c P).getD 0 ⟨0, 0, 0, 0, 0⟩ =
      ⟨0, P.startCorpus, P.startCorpus, P.startCorpus, 100⟩ := by
  have hrow : ∀ row ∈ trialMatrix normal c P, row.getD 0 0 = P.startCorpus := by
    intro row hr
    obtain ⟨g0, rfl⟩ := runTrials_mem normal P c P.sims _ row hr
    rw [List.getD_cons_zero, initTrial_sum]
  refine ⟨hrow, ?_⟩
  rw [runMonteCarlo_getD normal c P (Nat.zero_le _)]
  have hcol : ((trialMatrix normal c P).map fun row => row.getD 0 0) =
      List.replicate P.sims P.startCorpus := by
    refine List.eq_replicate_iff.2 ⟨by rw [List.length_map, trialMatrix_length], ?_⟩
    intro b hb
    rcases List.mem_map.mp hb with ⟨row, hrm, rfl⟩
    exact hrow row hrm
  rw [hcol]
  have hsortrep : sortAsc (List.replicate P.sims P.startCorpus) =
      List.replicate P.sims P.startCorpus := by
    refine List.eq_replicate_iff.2 ⟨by rw [sortAsc_length, List.length_replicate], ?_⟩
    intro b hb
    exact List.eq_of_mem_replicate ((sortAsc_perm _).mem_iff.mp hb)
  have hpos : 0 < P.sims := hs
  have h90 := floor_ninth_lt P.sims hpos
  have h50 := lt_of_le_of_lt (floor_half_le_ninth P.sims) h90
  have h10 := lt_of_le_of_lt (floor_tenth_le_half P.sims) h50
  have hcnt : (List.replicate P.sims P.startCorpus).countP (fun v => decide (1 < v)) =
      P.sims := by
    rw [List.countP_eq_length.2, List.length_replicate]
    intro a ha
    rw [List.eq_of_mem_replicate ha]
    exact decide_eq_true hsc
  unfold summarizeYear
  simp only [YearResult.mk.injEq]
  rw [hsortrep]
  refine ⟨trivial, getD_replicate_of_lt _ _ _ h10, getD_replicate_of_lt _ _ _ h50,
    getD_replicate_of_lt _ _ _ h90, ?_⟩
  rw [hcnt, div_self (Nat.cast_ne_zero.mpr (by omega : P.sims ≠ 0))]
  norm_num

theorem c4_year_zero_invariant_witness :
    (∀ row ∈ trialMatrix testNormal 1 P_w, row.getD 0 0 = P_w.startCorpus) ∧
    (runMonteCarlo testNormal 1 P_w).getD 0 ⟨0, 0, 0, 0, 0⟩ =
      ⟨0, P_w.startCorpus, P_w.startCorpus, P_w.startCorpus, 100⟩ :=
  c4_year_zero_invariant testNormal 1 P_w (by decide) (by decide)

/-- Claim C5: with non-negative starting corpus, base spend, reserve years
and discretionary spend, and a cut fraction at most 1, every recorded
per-trial value is non-negative, and a recorded 0 persists: once a trial's
row records 0 in some year, it records 0 in every later year. -/
theorem c5_depletion_terminal (normal : Rng → ℚ × Rng) (c : ℚ) (P : SimulationParams)
    (h1 : 0 ≤ P.startCorpus) (h2 : 0 ≤ P.w0) (h3 : 0 ≤ P.safeBucketYears)
    (h4 : 0 ≤ P.discretionarySpend) (h5 : P.cutPct ≤ 1) :
    ∀ row ∈ trialMatrix normal c P,
      (∀ v ∈ row, 0 ≤ v) ∧
      (∀ i j, i ≤ j → row.getD i 0 = 0 → row.getD j 0 = 0) := by
  intro row hr
  obtain ⟨g0, rfl⟩ := runTrials_mem normal P c P.sims _ row hr
  obtain ⟨hir, his⟩ := initTrial_nonneg P h1 h2 h3
  have hwd : 0 ≤ (initTrial P).wDisc := by unfold initTrial; exact h4
  constructor
  · intro v hv
    rcases List.mem_cons.mp hv with h | h
    · rw [h, initTrial_sum]; exact h1
    · exact simYears_nonneg normal P c P.years 1 _ g0 hir his v h
  · intro i j hij hi
    cases i with
    | zero =>
      rw [List.getD_cons_zero, initTrial_sum] at hi
      have hsum := initTrial_sum P
      have hz1 : (initTrial P).risky = 0 := by linarith
      have hz2 : (initTrial P).safe = 0 := by linarith
      cases j with
      | zero => rw [List.getD_cons_zero, initTrial_sum]; exact hi
      | succ j =>
        rw [List.getD_cons_succ]
        exact simYears_one_depleted normal P c P.years _ g0 hz1 hz2 hwd h5 j
    | succ i =>
      cases j with
      | zero => exact absurd hij (Nat.not_succ_le_zero i)
      | succ j =>
        rw [List.getD_cons_succ] at hi ⊢
        exact simYears_zeroTerminal normal P c P.years 1 _ g0 hir his i j
          (Nat.succ_le_succ_iff.mp hij) hi

unseal Rat.mul Rat.inv Rat.add Rat.sub in
theorem c5_depletion_terminal_witness :
    (∀ v ∈ (trialMatrix testNormal 1 P_w).getD 0 [], 0 ≤ v) ∧
    (∀ i j, i ≤ j → ((trialMatrix testNormal 1 P_w).getD 0 []).getD i 0 = 0 →
      ((trialMatrix testNormal 1 P_w).getD 0 []).getD j 0 = 0) :=
  c5_depletion_terminal testNormal 1 P_w (by decide) (by decide) (by decide) (by decide)
    (by decide) _ (by decide)

/-- Claim C6: for every configuration with at least one trial, every returned
`YearResult` satisfies `p10 ≤ p50 ≤ p90`. -/
theorem c6_percentiles_monotone (normal : Rng → ℚ × Rng) (c : ℚ) (P : SimulationParams)
    (hs : 1 ≤ P.sims) :
    ∀ res ∈ runMonteCarlo normal c P, res.p10 ≤ res.p50 ∧ res.p50 ≤ res.p90 := by
  intro res hres
  unfold runMonteCarlo at hres
  rcases List.mem_map.mp hres with ⟨yr, hyrmem, rfl⟩
  have hlen : (sortAsc ((trialMatrix normal c P).map fun row => row.getD yr 0)).length
      = P.sims := by
    rw [sortAsc_length, List.length_map, trialMatrix_length]
  have hpos : 0 < P.sims := hs
  have h90 : ⌊(9 / 10 : ℚ) * P.sims⌋₊ <
      (sortAsc ((trialMatrix normal c P).map fun row => row.getD yr 0)).length := by
    rw [hlen]; exact floor_ninth_lt P.sims hpos
  have h50 : ⌊(1 / 2 : ℚ) * P.sims⌋₊ <
      (sortAsc ((trialMatrix normal c P).map fun row => row.getD yr 0)).length :=
    lt_of_le_of_lt (floor_half_le_ninth P.sims) h90
  unfold summarizeYear
  exact ⟨sorted_getD_mono (sortAsc_sorted _) (floor_tenth_le_half P.sims) h50,
    sorted_getD_mono (sortAsc_sorted _) (floor_half_le_ninth P.sims) h90⟩

unseal Rat.mul Rat.inv Rat.add Rat.sub in
theorem c6_percentiles_monotone_witness :
    ((runMonteCarlo testNormal 1 P_w).getD 0 ⟨0, 0, 0, 0, 0⟩).p10 ≤
      ((runMonteCarlo testNormal 1 P_w).getD 0 ⟨0, 0, 0, 0, 0⟩).p50 ∧
    ((runMonteCarlo testNormal 1 P_w).getD 0 ⟨0, 0, 0, 0, 0⟩).p50 ≤
      ((runMonteCarlo testNormal 1 P_w).getD 0 ⟨0, 0, 0, 0, 0⟩).p90 :=
  c6_percentiles_monotone testNormal 1 P_w (by decide) _ (by decide)

/-! ### Claims C7 and C9: determinism and seed dependence -/

theorem simYears_seed_irrel (normal : Rng → ℚ × Rng) (P : SimulationParams) (c : ℚ)
    (s₁ s₂ : Option ℤ) :
    ∀ (n yr : ℕ) (st : TrialState) (g : Rng),
      simYears normal { P with randomSeed := s₁ } c n yr st g =
        simYears normal { P with randomSeed := s₂ } c n yr st g := by
  intro n
  induction n with
  | zero => intro yr st g; rfl
  | succ n ih =>
    intro yr st g
    simp only [simYears]
    rw [show yearStep { P with randomSeed := s₁ } c yr (normal g).1 (normal (normal g).2).1 st =
      yearStep { P with randomSeed := s₂ } c yr (normal g).1 (normal (normal g).2).1 st from rfl]
    rw [ih (yr + 1) _ (normal (normal g).2).2]

theorem runTrials_seed_irrel (normal : Rng → ℚ × Rng) (P : SimulationParams) (c : ℚ)
    (s₁ s₂ : Option ℤ) :
    ∀ (n : ℕ) (g : Rng),
      runTrials normal { P with randomSeed := s₁ } c n g =
        runTrials normal { P with randomSeed := s₂ } c n g := by
  intro n
  induction n with
  | zero => intro g; rfl
  | succ n ih =>
    intro g
    simp only [runTrials]
    rw [show ({ P with randomSeed := s₁ } : SimulationParams).years =
      ({ P with randomSeed := s₂ } : SimulationParams).years from rfl]
    rw [show (initTrial { P with randomSeed := s₁ }) =
      (initTrial { P with randomSeed := s₂ }) from rfl]
    rw [simYears_seed_irrel normal P c s₁ s₂]
    rw [ih]

theorem runMonteCarlo_seed_congr (normal : Rng → ℚ × Rng) (c : ℚ)
    (P : SimulationParams) (s₁ s₂ : Option ℤ)
    (h : seedState (s₁.getD 12345) = seedState (s₂.getD 12345)) :
    runMonteCarlo normal c { P with randomSeed := s₁ } =
      runMonteCarlo normal c { P with randomSeed := s₂ } := by
  unfold runMonteCarlo trialMatrix
  dsimp only
  rw [h, runTrials_seed_irrel normal P c s₁ s₂]

/-- Claim C7: the engine is deterministic and shares no state across calls —
equal configurations give equal outputs (the model is a pure function of the
configuration and the abstracted normal source, each call building its
generator afresh from the seed), and an omitted seed behaves exactly like
the fixed default seed 12345. -/
theorem c7_deterministic (normal : Rng → ℚ × Rng) (c : ℚ) (P Q : SimulationParams)
    (h : P = Q) :
    runMonteCarlo normal c P = runMonteCarlo normal c Q ∧
    runMonteCarlo normal c { P with randomSeed := none } =
      runMonteCarlo normal c { P with randomSeed := some 12345 } := by
  subst h
  exact ⟨rfl, runMonteCarlo_seed_congr normal c P none (some 12345) rfl⟩

theorem c7_deterministic_witness :
    runMonteCarlo testNormal 1 P_w = runMonteCarlo testNormal 1 P_w ∧
    runMonteCarlo testNormal 1 { P_w with randomSeed := none } =
      runMonteCarlo testNormal 1 { P_w with randomSeed := some 12345 } :=
  c7_deterministic testNormal 1 P_w P_w rfl

/-- Claim C9: the result depends on the seed only through its value modulo
`2 ^ 32`: two integer seeds congruent modulo `2 ^ 32` produce identical
generator state words (both words are derived from the truncated seed) and
hence identical output. -/
theorem c9_seed_mod_2pow32 (a b : ℤ) (h : a % 4294967296 = b % 4294967296)
    (normal : Rng → ℚ × Rng) (c : ℚ) (P : SimulationParams) :
    runMonteCarlo normal c { P with randomSeed := some a } =
      runMonteCarlo normal c { P with randomSeed := some b } := by
  have h1 : toUint32 a = toUint32 b := by unfold toUint32; rw [h]
  have h2 : toUint32 (a + 2654435769) = toUint32 (b + 2654435769) := by
    unfold toUint32; omega
  have hseed : seedState a = seedState b := by unfold seedState; rw [h1, h2]
  exact runMonteCarlo_seed_congr normal c P (some a) (some b) hseed

unseal Rat.mul Rat.inv Rat.add Rat.sub in
theorem c9_seed_mod_2pow32_witness :
    runMonteCarlo testNormal 1 { P_w with randomSeed := some 1 } =
      runMonteCarlo testNormal 1 { P_w with randomSeed := some 4294967297 } :=
  c9_seed_mod_2pow32 1 4294967297 (by decide) testNormal 1 P_w

/-! ### Claim C10: the reserve is untouched outside its policy window -/

/-- Claim C10: outside its policy window the safe reserve is never drawn
down.  In loss-year-only mode, when the unclipped return is non-negative the
reserve changes only by its compounding and the whole withdrawal hits the
risky corpus (clamped at 0, so a shortfall is never taken from the reserve);
in first-K-years mode the same holds for every year past the reserve
window. -/
theorem c10_reserve_untouched (P : SimulationParams) (c : ℚ) (yr : ℕ) (z1 z2 : ℚ)
    (st : TrialState) :
    (P.useFirstNYearsReserve = false → 0 ≤ P.meanR + P.stdR * z1 →
      (yearStep P c yr z1 z2 st).safe = growSafe P.reserveR st.safe ∧
      (yearStep P c yr z1 z2 st).risky =
        max 0 (st.risky * (1 + (P.meanR + P.stdR * z1)) -
          totalWithdrawal
            (updateSpending P yr (clipInfl (P.inflation + P.inflationSD *
              (P.returnInflationCorr * z1 + c * z2))) st.wAnnual st.wDisc).1
            (updateSpending P yr (clipInfl (P.inflation + P.inflationSD *
              (P.returnInflationCorr * z1 + c * z2))) st.wAnnual st.wDisc).2)) ∧
    (P.useFirstNYearsReserve = true → P.safeBucketYears < (yr : ℚ) →
      (yearStep P c yr z1 z2 st).safe = growSafe P.reserveR st.safe ∧
      (yearStep P c yr z1 z2 st).risky =
        max 0 (st.risky * (1 + (P.meanR + P.stdR * z1)) -
          totalWithdrawal
            (updateSpending P yr (clipInfl (P.inflation + P.inflationSD *
              (P.returnInflationCorr * z1 + c * z2))) st.wAnnual st.wDisc).1
            (if P.meanR + P.stdR * z1 < 0 then
              (updateSpending P yr (clipInfl (P.inflation + P.inflationSD *
                (P.returnInflationCorr * z1 + c * z2))) st.wAnnual st.wDisc).2 *
                (1 - P.cutPct)
            else
              (updateSpending P yr (clipInfl (P.inflation + P.inflationSD *
                (P.returnInflationCorr * z1 + c * z2))) st.wAnnual st.wDisc).2))) := by
  constructor
  · intro hm hr
    have hnlt : ¬ (P.meanR + P.stdR * z1 < 0) := not_lt.mpr hr
    unfold yearStep
    dsimp only
    rw [hm, if_neg Bool.false_ne_true,
      decide_eq_false
        (fun hand : (P.meanR + P.stdR * z1 < 0 ∧ 0 < growSafe P.reserveR st.safe) =>
          hnlt hand.1)]
    unfold drawFrom
    rw [if_neg Bool.false_ne_true, if_neg hnlt]
    exact ⟨rfl, rfl⟩
  · intro hm hyr
    have hnle : ¬ ((yr : ℚ) ≤ P.safeBucketYears) := not_le.mpr hyr
    unfold yearStep
    dsimp only
    rw [hm, if_pos rfl,
      decide_eq_false
        (fun hand : ((yr : ℚ) ≤ P.safeBucketYears ∧ 0 < growSafe P.reserveR st.safe) =>
          hnle hand.1)]
    unfold drawFrom
    rw [if_neg Bool.false_ne_true]
    exact ⟨rfl, rfl⟩

unseal Rat.mul Rat.inv Rat.add Rat.sub in
theorem c10_reserve_untouched_witness :
    (yearStep P_w 1 6 1 0 ⟨4, 3, 2, 1⟩).safe = growSafe P_w.reserveR (3 : ℚ) ∧
    (yearStep P_w 1 6 1 0 ⟨4, 3, 2, 1⟩).risky =
      max 0 ((4 : ℚ) * (1 + (P_w.meanR + P_w.stdR * 1)) -
        totalWithdrawal
          (updateSpending P_w 6 (clipInfl (P_w.inflation + P_w.inflationSD *
            (P_w.returnInflationCorr * 1 + 1 * 0))) (2 : ℚ) (1 : ℚ)).1
          (if P_w.meanR + P_w.stdR * 1 < 0 then
            (updateSpending P_w 6 (clipInfl (P_w.inflation + P_w.inflationSD *
              (P_w.returnInflationCorr * 1 + 1 * 0))) (2 : ℚ) (1 : ℚ)).2 * (1 - P_w.cutPct)
          else
            (updateSpending P_w 6 (clipInfl (P_w.inflation + P_w.inflationSD *
              (P_w.returnInflationCorr * 1 + 1 * 0))) (2 : ℚ) (1 : ℚ)).2)) :=
  (c10_reserve_untouched P_w 1 6 1 0 ⟨4, 3, 2, 1⟩).2 rfl (by decide)

end MonteCarlo
